import Mathlib

/-!
Verification of the local data-persistence and synchronization layer of the
organizador-gastos application: the key-value store adapter (safeStorage.js),
the change-notification bus (eventBus.js), the versioned repository
(dataManager.js) and the adaptive snapshot scheduler (smartAutoSave.js).

Modelling conventions:
* `localStorage` keys used by `DataManager` each hold one JSON-serialized
  value.  The store is embedded as a typed record (`Store`) holding the
  parsed value of each key (`none` = key absent); `JSON.parse ∘
  JSON.stringify` is the identity on JSON values, so reads and writes act
  directly on the parsed values.
* JSON values are `JsonVal` (numbers restricted to integers, which covers
  every value the claims exercise).  JavaScript truthiness, property access,
  `Array.isArray`, `String(...)` coercion and `JSON.stringify` are embedded
  explicitly.
* JavaScript wall-clock observations (`Date.now()`, `new
  Date().toISOString()`) are passed as explicit parameters.
* 32-bit integer wrap-around of `hash = ((hash << 5) - hash) + c; hash =
  hash & hash` is embedded with explicit reduction into `[-2^31, 2^31)`
  (`hash << 5` on an int32 operand equals `hash * 32` wrapped to int32).
-/

/-- A JSON value.  Object fields keep insertion order, as JavaScript does. -/
inductive JsonVal where
  | str (s : String)
  | num (n : Int)
  | bool (b : Bool)
  | null
  | arr (elems : List JsonVal)
  | obj (fields : List (String × JsonVal))

/-- JavaScript truthiness of a JSON value. -/
def jsTruthy : JsonVal → Bool
  | .str s => s ≠ ""
  | .num n => n ≠ 0
  | .bool b => b
  | .null => false
  | .arr _ => true
  | .obj _ => true

/-- Property access `v[k]`: `none` models JavaScript's `undefined`. -/
def jsGetField (v : JsonVal) (k : String) : Option JsonVal :=
  match v with
  | .obj fields => (fields.find? (fun f => f.1 == k)).map (fun f => f.2)
  | _ => none

/-- Property assignment `v[k] = x` on an object: replaces the value in place
if the key exists, otherwise appends the key (JavaScript insertion order). -/
def jsSetFieldList (k : String) (x : JsonVal) : List (String × JsonVal) → List (String × JsonVal)
  | [] => [(k, x)]
  | f :: fs => if f.1 == k then (k, x) :: fs else f :: jsSetFieldList k x fs

def jsSetField (v : JsonVal) (k : String) (x : JsonVal) : JsonVal :=
  match v with
  | .obj fields => .obj (jsSetFieldList k x fields)
  | other => other

/-- Truthiness of a possibly-undefined value (`undefined` is falsy). -/
def jsTruthyO : Option JsonVal → Bool
  | some v => jsTruthy v
  | none => false

/-- `Array.isArray` on a possibly-undefined value. -/
def isArrayO : Option JsonVal → Bool
  | some (.arr _) => true
  | _ => false

/-- `x || []` where `x` may be undefined. -/
def jsOrEmptyArr (o : Option JsonVal) : JsonVal :=
  match o with
  | some v => if jsTruthy v then v else .arr []
  | none => .arr []

/-- `v || []` on a present value. -/
def jsOrEmptyArrV (v : JsonVal) : JsonVal :=
  if jsTruthy v then v else .arr []

/-- Optional chaining `o?.[k]` (`o` possibly undefined; `null`/`undefined`
short-circuit to `undefined`). -/
def jsOptChain (o : Option JsonVal) (k : String) : Option JsonVal :=
  match o with
  | none => none
  | some .null => none
  | some v => jsGetField v k

/-- Hexadecimal digit (lowercase), for JSON string escapes. -/
def hexDigit (n : Nat) : Char :=
  if n < 10 then Char.ofNat (48 + n) else Char.ofNat (87 + (n % 16))

/-- Four-digit hexadecimal rendering, for `\uXXXX` escapes. -/
def hex4 (n : Nat) : String :=
  String.mk [hexDigit (n / 4096 % 16), hexDigit (n / 256 % 16), hexDigit (n / 16 % 16), hexDigit (n % 16)]

/-- How `JSON.stringify` escapes one character inside a string literal. -/
def escChar (c : Char) : String :=
  if c = '"' then "\\\""
  else if c = '\\' then "\\\\"
  else if c = Char.ofNat 8 then "\\b"
  else if c = Char.ofNat 9 then "\\t"
  else if c = Char.ofNat 10 then "\\n"
  else if c = Char.ofNat 12 then "\\f"
  else if c = Char.ofNat 13 then "\\r"
  else if c.toNat < 32 then "\\u" ++ hex4 c.toNat
  else String.singleton c

/-- `JSON.stringify` of a string. -/
def quoteStr (s : String) : String :=
  "\"" ++ String.join (s.data.map escChar) ++ "\""

mutual

/-- `JSON.stringify` (no spacing), over the embedded JSON values. -/
def jsonStringify : JsonVal → String
  | .str s => quoteStr s
  | .num n => toString n
  | .bool b => if b then "true" else "false"
  | .null => "null"
  | .arr elems => "[" ++ jsonStringifyElems elems ++ "]"
  | .obj fields => "\x7b" ++ jsonStringifyFields fields ++ "\x7d"

def jsonStringifyElems : List JsonVal → String
  | [] => ""
  | [v] => jsonStringify v
  | v :: rest => jsonStringify v ++ "," ++ jsonStringifyElems rest

def jsonStringifyFields : List (String × JsonVal) → String
  | [] => ""
  | [f] => quoteStr f.1 ++ ":" ++ jsonStringify f.2
  | f :: rest => quoteStr f.1 ++ ":" ++ jsonStringify f.2 ++ "," ++ jsonStringifyFields rest

end

mutual

/-- JavaScript `String(v)` coercion of a JSON value (arrays join their
elements with commas, objects render as `[object Object]`). -/
def jsToStr : JsonVal → String
  | .str s => s
  | .num n => toString n
  | .bool b => if b then "true" else "false"
  | .null => "null"
  | .arr elems => jsToStrElems elems
  | .obj _ => "[object Object]"

/-- `Array.prototype.toString`: `join(",")` with `null` rendering empty. -/
def jsToStrElems : List JsonVal → String
  | [] => ""
  | [v] => jsToStrElem v
  | v :: rest => jsToStrElem v ++ "," ++ jsToStrElems rest

def jsToStrElem : JsonVal → String
  | .null => ""
  | v => jsToStr v

end

/-!
## Key-Value Store Adapter (safeStorage.js)

`localStorage` and the in-memory fallback `Map` are both embedded as
association lists from keys to stored strings (`setItem` coerces every value
to a string before storing).  `isAvailable` selects which backing store each
operation touches; the claims compare the nominal behaviour of the two
modes, so the quota-exceeded catch branches never fire in the model.
-/

def kvSet : List (String × String) → String → String → List (String × String)
  | [], k, v => [(k, v)]
  | p :: rest, k, v => if p.1 == k then (k, v) :: rest else p :: kvSet rest k v

def kvRemove : List (String × String) → String → List (String × String)
  | [], _ => []
  | p :: rest, k => if p.1 == k then rest else p :: kvRemove rest k

def kvGet (kv : List (String × String)) (k : String) : Option String :=
  (kv.find? (fun p => p.1 == k)).map (fun p => p.2)

/-- `SafeStorage.getItem(key, default)`.  In the available mode the stored
item is returned whenever it is not `null`; in the fallback mode the source
reads `this.fallbackData.get(key) || defaultValue`, so a stored falsy string
(the empty string) yields the default instead. -/
def getItem (isAvailable : Bool) (ls mem : List (String × String)) (key default : String) : String :=
  if key = "" then default
  else if isAvailable then
    match kvGet ls key with
    | some item => item
    | none => default
  else
    match kvGet mem key with
    | some v => if v = "" then default else v
    | none => default

/-- `SafeStorage.setItem(key, value)`: returns success and the two backing
stores after the write. -/
def setItem (isAvailable : Bool) (ls mem : List (String × String)) (key value : String) :
    Bool × List (String × String) × List (String × String) :=
  if key = "" then (false, ls, mem)
  else if isAvailable then (true, kvSet ls key value, mem)
  else (true, ls, kvSet mem key value)

/-- `SafeStorage.removeItem(key)`. -/
def removeItem (isAvailable : Bool) (ls mem : List (String × String)) (key : String) :
    Bool × List (String × String) × List (String × String) :=
  if key = "" then (false, ls, mem)
  else if isAvailable then (true, kvRemove ls key, mem)
  else (true, ls, kvRemove mem key)

/-- `SafeStorage.hasItem(key)`. -/
def hasItem (isAvailable : Bool) (ls mem : List (String × String)) (key : String) : Bool :=
  if key = "" then false
  else if isAvailable then (kvGet ls key).isSome
  else (kvGet mem key).isSome

/-- One operation of a caller-visible storage session. -/
inductive StoreOp where
  | set (k v : String)
  | get (k d : String)
  | remove (k : String)
  | has (k : String)
deriving DecidableEq

/-- What the caller observes from one operation. -/
inductive StoreObs where
  | retStr (s : String)
  | retBool (b : Bool)
deriving DecidableEq

/-- Runs a sequence of adapter operations in the given availability mode and
collects the caller-visible results. -/
def runOps (isAvailable : Bool) : List (String × String) → List (String × String) → List StoreOp → List StoreObs
  | _, _, [] => []
  | ls, mem, .set k v :: rest =>
    let r := setItem isAvailable ls mem k v
    .retBool r.1 :: runOps isAvailable r.2.1 r.2.2 rest
  | ls, mem, .get k d :: rest =>
    .retStr (getItem isAvailable ls mem k d) :: runOps isAvailable ls mem rest
  | ls, mem, .remove k :: rest =>
    let r := removeItem isAvailable ls mem k
    .retBool r.1 :: runOps isAvailable r.2.1 r.2.2 rest
  | ls, mem, .has k :: rest =>
    .retBool (hasItem isAvailable ls mem k) :: runOps isAvailable ls mem rest

/-!
## Versioned Repository (dataManager.js)

The `DataManager` runs with `useFallback = false` (the `safeStorage`
singleton exists), so every read/write goes through `SafeStorage`'s JSON
wrappers over `localStorage`.
-/

/-- The full-state bundle `saveData` composed by `DataManager.autoSave`
(also the shape read back by `restoreAutoSaveVersion`). -/
structure SaveData where
  expensesData : JsonVal
  incomeData : JsonVal
  cards : JsonVal
  catIncome : JsonVal
  catExpense : JsonVal
  achievements : JsonVal
  monthlyGoal : Option String
  timestamp : String
  hash : String
  version : String

/-- One auto-save history entry, as built by `saveAutoSaveVersion`. -/
structure Snapshot where
  id : Int
  timestamp : String
  data : SaveData
  hash : String

/-- The `localStorage` keys owned by `DataManager`, holding parsed values
(`none` = key absent).  `monthlyExpenseGoal` is stored as a raw string; the
remaining keys hold JSON. -/
structure Store where
  expensesData : Option JsonVal := none
  incomeData : Option JsonVal := none
  cards : Option JsonVal := none
  incomeCategories : Option JsonVal := none
  expenseCategories : Option JsonVal := none
  achievements : Option JsonVal := none
  monthlyGoal : Option String := none
  appData : Option SaveData := none
  autoSaveHistory : Option (List Snapshot) := none
  lastAutoSave : Option String := none

def emptyStore : Store := {}

/-- `getExpenses()`: `safeStorage.getJSON('expensesData', [])`. -/
def getExpenses (store : Store) : JsonVal :=
  store.expensesData.getD (.arr [])

def getIncomes (store : Store) : JsonVal :=
  store.incomeData.getD (.arr [])

def getCards (store : Store) : JsonVal :=
  store.cards.getD (.arr [])

/-- Truthiness of `data.monthlyGoal` when typed as an optional raw string. -/
def optStrTruthy : Option String → Bool
  | some s => s ≠ ""
  | none => false

/-- Digit of `Number.prototype.toString(36)` (lowercase). -/
def base36Digit (n : Nat) : Char :=
  if n < 10 then Char.ofNat (48 + n) else Char.ofNat (87 + n)

def natToBase36Aux : Nat → List Char
  | 0 => []
  | n + 1 => natToBase36Aux ((n + 1) / 36) ++ [base36Digit ((n + 1) % 36)]
decreasing_by exact Nat.div_lt_self (Nat.succ_pos n) (by decide)

/-- `Date.now().toString(36)`. -/
def natToBase36 (n : Nat) : String :=
  if n = 0 then "0" else String.mk (natToBase36Aux n)

/-- The id minted by `addExpense` for a record without one:
`Date.now().toString(36) + Math.random().toString(36).substr(2)`; the random
suffix is passed in as a parameter. -/
def mintId (now : Nat) (randSuffix : String) : String :=
  natToBase36 now ++ randSuffix

/-- `addExpense(expense)`: reads the collection, mints an id when the record
has none (a falsy `id`), appends, saves, and returns the stored record.
`none` models the `TypeError` a non-array stored collection would raise on
`push`. -/
def addExpense (store : Store) (expense : JsonVal) (now : Nat) (randSuffix : String) :
    Option (JsonVal × Store) :=
  match getExpenses store with
  | .arr expenses =>
    let expense := if jsTruthyO (jsGetField expense "id") then expense
                   else jsSetField expense "id" (.str (mintId now randSuffix))
    some (expense, { store with expensesData := some (.arr (expenses ++ [expense])) })
  | _ => none

/-- Wraps an integer to a signed 32-bit value, the effect of `hash & hash`
(and of `<< 5` on its operand) in JavaScript. -/
def toInt32 (n : Int) : Int :=
  let m := n % 4294967296
  if m < 2147483648 then m else m - 4294967296

/-- One step of the rolling hash: `hash = ((hash << 5) - hash) + charCode;
hash = hash & hash`. -/
def hashStep (h : Int) (c : Char) : Int :=
  toInt32 (toInt32 (h * 32) - h + (c.toNat : Int))

/-- The `for` loop of the rolling hash, with the running `hash` variable as
a strict accumulator (matching on its constructor mirrors the source's
mutable variable holding an evaluated number at every iteration). -/
def hashChars : Int → List Char → Int
  | h, [] => h
  | .ofNat m, c :: cs => hashChars (hashStep (.ofNat m) c) cs
  | .negSucc m, c :: cs => hashChars (hashStep (.negSucc m) c) cs

/-- The rolling hash over a serialized bundle. -/
def hashString (s : String) : Int :=
  hashChars 0 s.data

/-- JSON view of the raw `monthlyExpenseGoal` item (`getItem` defaults to
`null`). -/
def jsonOfGoal : Option String → JsonVal
  | some s => .str s
  | none => .null

/-- `DataManager.generateDataHash()`: serializes all collections plus the
goal and the current `Date.now()` timestamp and reduces the string with the
rolling hash; returns the decimal rendering of the signed 32-bit result. -/
def generateDataHash (store : Store) (now : Int) : String :=
  let currentData : JsonVal := .obj [
    ("expensesData", store.expensesData.getD (.arr [])),
    ("incomeData", store.incomeData.getD (.arr [])),
    ("cards", store.cards.getD (.arr [])),
    ("categories", .obj [
      ("income", store.incomeCategories.getD (.arr [])),
      ("expense", store.expenseCategories.getD (.arr []))]),
    ("achievements", store.achievements.getD (.arr [])),
    ("monthlyGoal", jsonOfGoal store.monthlyGoal),
    ("timestamp", .num now)]
  toString (hashString (jsonStringify currentData))

/-- `DataManager.saveAutoSaveVersion(data)`: prepends a new entry with id
`Date.now()` and truncates the history to the last `maxAutoSaveVersions`
entries. -/
def saveAutoSaveVersion (maxVersions : Nat) (store : Store) (now : Int) (data : SaveData) : Store :=
  let autoSaveHistory := store.autoSaveHistory.getD []
  let autoSaveHistory := { id := now, timestamp := data.timestamp, data := data, hash := data.hash : Snapshot } :: autoSaveHistory
  let autoSaveHistory := if autoSaveHistory.length > maxVersions then autoSaveHistory.take maxVersions else autoSaveHistory
  { store with autoSaveHistory := some autoSaveHistory }

/-- `DataManager.getAutoSaveVersions()`. -/
def getAutoSaveVersions (store : Store) : List Snapshot :=
  store.autoSaveHistory.getD []

/-- The `DataManager` instance state relevant to auto-save: the backing
store plus the `lastDataHash` field. -/
structure DMState where
  store : Store
  lastDataHash : Option String := none

/-- `DataManager.autoSave()`: recomputes the fingerprint; when it differs
from `lastDataHash` (or none is stored) it composes the full bundle,
prepends it to the bounded history, persists `lastAutoSave`/`appData` and
updates `lastDataHash`; otherwise it is a silent no-op.  `now` is the
`Date.now()` observation and `nowIso` the `new Date().toISOString()` one. -/
def autoSave (maxVersions : Nat) (s : DMState) (now : Int) (nowIso : String) : DMState :=
  let currentHash := generateDataHash s.store now
  if s.lastDataHash = some currentHash then s
  else
    let saveData : SaveData := {
      expensesData := getExpenses s.store,
      incomeData := getIncomes s.store,
      cards := getCards s.store,
      catIncome := s.store.incomeCategories.getD (.arr []),
      catExpense := s.store.expenseCategories.getD (.arr []),
      achievements := s.store.achievements.getD (.arr []),
      monthlyGoal := s.store.monthlyGoal,
      timestamp := nowIso,
      hash := currentHash,
      version := "2.0" }
    let store := saveAutoSaveVersion maxVersions s.store now saveData
    let store := { store with lastAutoSave := some nowIso, appData := some saveData }
    { store := store, lastDataHash := some currentHash }

/-- `DataManager.restoreAutoSaveVersion(versionId)`: on a hit overwrites
every collection key (and `appData`, and the goal when truthy) from the
snapshot and returns `true`; on a miss returns `false` without touching the
store. -/
def restoreAutoSaveVersion (store : Store) (versionId : Int) : Bool × Store :=
  let autoSaveHistory := getAutoSaveVersions store
  match autoSaveHistory.find? (fun v => v.id == versionId) with
  | some version =>
    let data := version.data
    (true, { store with
      expensesData := some (jsOrEmptyArrV data.expensesData),
      incomeData := some (jsOrEmptyArrV data.incomeData),
      cards := some (jsOrEmptyArrV data.cards),
      incomeCategories := some (jsOrEmptyArrV data.catIncome),
      expenseCategories := some (jsOrEmptyArrV data.catExpense),
      achievements := some (jsOrEmptyArrV data.achievements),
      monthlyGoal := if optStrTruthy data.monthlyGoal then data.monthlyGoal else store.monthlyGoal,
      appData := some data })
  | none => (false, store)

/-- `DataManager.validateDataStructure(data)`: the three primary collections
must be arrays. -/
def validateDataStructure (d : JsonVal) : Bool :=
  jsTruthy d
    && isArrayO (jsGetField d "expensesData")
    && isArrayO (jsGetField d "incomeData")
    && isArrayO (jsGetField d "cards")

/-- Contribution of one collection write to `successCount`: `setJSON`
reports `false` exactly for the simulated failing keys, and a failure is not
counted. -/
def opCount (failedKeys : List String) (key : String) : Nat :=
  if failedKeys.contains key then 0 else 1

/-- The value a storage key holds after one collection write: a failing
`setJSON` leaves the key untouched. -/
def opVal (failedKeys : List String) (key : String) (old upd : Option JsonVal) : Option JsonVal :=
  if failedKeys.contains key then old else upd

/-- `DataManager.restoreDataSafely(data)`: runs the six per-collection
writes, counting those that do not report failure, then writes the goal when
truthy (counted unconditionally, since `setItem` never throws); reports
success when at least one operation counted.  `failedKeys` simulates which
storage keys reject their write (`setJSON` returning `false`, leaving the
key untouched).  The six sequential operations touch pairwise distinct keys,
so their sequential execution equals this simultaneous record update. -/
def restoreDataSafely (failedKeys : List String) (store : Store) (d : JsonVal) : Bool × Store :=
  let goalTruthy := jsTruthyO (jsGetField d "monthlyGoal")
  let store' : Store := { store with
    expensesData := opVal failedKeys "expensesData" store.expensesData
      (some (jsOrEmptyArr (jsGetField d "expensesData"))),
    incomeData := opVal failedKeys "incomeData" store.incomeData
      (some (jsOrEmptyArr (jsGetField d "incomeData"))),
    cards := opVal failedKeys "cards" store.cards
      (some (jsOrEmptyArr (jsGetField d "cards"))),
    incomeCategories := opVal failedKeys "income-categories" store.incomeCategories
      (some (jsOrEmptyArr (jsOptChain (jsGetField d "categories") "income"))),
    expenseCategories := opVal failedKeys "expense-categories" store.expenseCategories
      (some (jsOrEmptyArr (jsOptChain (jsGetField d "categories") "expense"))),
    achievements := opVal failedKeys "achievements" store.achievements
      (some (jsOrEmptyArr (jsGetField d "achievements"))),
    monthlyGoal := if goalTruthy && !failedKeys.contains "monthlyExpenseGoal" then
        some (jsToStr ((jsGetField d "monthlyGoal").getD .null))
      else store.monthlyGoal }
  let successCount := opCount failedKeys "expensesData" + opCount failedKeys "incomeData"
    + opCount failedKeys "cards" + opCount failedKeys "income-categories"
    + opCount failedKeys "expense-categories" + opCount failedKeys "achievements"
    + (if goalTruthy then 1 else 0)
  (successCount > 0, store')

/-- The import path of `DataManager.loadFromFileInput` after the file has
been read and parsed: `parsed = none` models a parse failure (or a parsed
`null`, which `parseJSON`'s default also renders as `null`); a falsy parse
result or an invalid structure rejects before any write; otherwise the data
is restored and a restore failure still rejects.  Returns the rejection
message (if any) and the resulting store. -/
def loadFromFileData (failedKeys : List String) (store : Store) (parsed : Option JsonVal) :
    Option String × Store :=
  match parsed with
  | none => (some "Arquivo JSON invalido ou corrompido", store)
  | some d =>
    if jsTruthy d = false then (some "Arquivo JSON invalido ou corrompido", store)
    else if validateDataStructure d then
      let r := restoreDataSafely failedKeys store d
      if r.1 then (none, r.2) else (some "Falha ao restaurar dados no storage", r.2)
    else (some "Estrutura de dados invalida", store)

/-!
## Change-Notification Bus (eventBus.js)

A handler's behaviour during one dispatch is abstracted by its outcome: it
returns a non-`false` value, returns the stop sentinel `false`, or throws.
Listener removal by object identity is embedded as removal by listener id
(exact whenever ids are distinct, which `on` guarantees by default).
`invoked` instruments which callbacks actually ran, in execution order.
-/

inductive HandlerOutcome where
  | ok
  | stop
  | err
deriving DecidableEq

structure Listener where
  id : Nat
  priority : Int
  once : Bool
  outcome : HandlerOutcome
deriving DecidableEq

structure EmitOptions where
  ignoreStopPropagation : Bool := false
  removeOnError : Bool := false
deriving DecidableEq

/-- `Array.from(listeners).sort((a, b) => b.priority - a.priority)`:
a stable sort into descending priority order. -/
def priorityGE (a b : Listener) : Prop := b.priority ≤ a.priority

instance : DecidableRel priorityGE := fun a b => Int.decLe b.priority a.priority

def sortListeners (ls : List Listener) : List Listener :=
  ls.insertionSort priorityGE

structure LoopOut where
  count : Nat
  removeIds : List Nat
  invoked : List Listener
deriving DecidableEq

/-- The dispatch loop of `EventBus.emit`: per listener, a throw is caught
(optionally marking the listener for removal); a `false` return breaks
before being counted unless `ignoreStopPropagation`; otherwise the execution
is counted and a `once` listener is marked for removal. -/
def emitLoop (opts : EmitOptions) : List Listener → LoopOut
  | [] => ⟨0, [], []⟩
  | l :: ls =>
    match l.outcome with
    | .err =>
      let r := emitLoop opts ls
      ⟨r.count, (if opts.removeOnError then [l.id] else []) ++ r.removeIds, l :: r.invoked⟩
    | .stop =>
      if opts.ignoreStopPropagation then
        let r := emitLoop opts ls
        ⟨r.count + 1, (if l.once then [l.id] else []) ++ r.removeIds, l :: r.invoked⟩
      else ⟨0, [], [l]⟩
    | .ok =>
      let r := emitLoop opts ls
      ⟨r.count + 1, (if l.once then [l.id] else []) ++ r.removeIds, l :: r.invoked⟩

structure EmitResult where
  handled : Bool
  listeners : List Listener
  invoked : List Listener

/-- `EventBus.emit(eventName, data, options)`: returns `false` when no
listener is registered; otherwise sorts by descending priority, runs the
dispatch loop, removes the marked listeners and reports whether
`executedCount > 0`. -/
def emit (ls : List Listener) (opts : EmitOptions) : EmitResult :=
  if ls.isEmpty then ⟨false, ls, []⟩
  else
    let r := emitLoop opts (sortListeners ls)
    ⟨decide (0 < r.count), ls.filter (fun l => !(r.removeIds.contains l.id)), r.invoked⟩

/-- Which invocations `emit` counts towards `executedCount`: completions
that neither threw nor returned the (unoverridden) stop sentinel. -/
def execPred (opts : EmitOptions) (l : Listener) : Bool :=
  l.outcome == .ok || (l.outcome == .stop && opts.ignoreStopPropagation)

/-- Which invoked listeners end up marked for removal. -/
def removePred (opts : EmitOptions) (l : Listener) : Bool :=
  match l.outcome with
  | .err => opts.removeOnError
  | .stop => opts.ignoreStopPropagation && l.once
  | .ok => l.once

/-- The invocation order when the stop sentinel halts propagation: every
listener up to and including the first stop-returning one. -/
def takeThroughStop : List Listener → List Listener
  | [] => []
  | l :: ls => if l.outcome == .stop then [l] else l :: takeThroughStop ls

/-!
## Adaptive Snapshot Scheduler (smartAutoSave.js)

Timers are embedded as pending-flags: `autoSaveTimer` (the periodic attempt
scheduled by `scheduleNextSave`) and `debounceTimer` (a deferred
`executeSave`).  A timer firing clears its flag and runs its handler.  The
outcome of one save attempt (callback succeeded, callback returned `false`,
or the awaited call threw / timed out) is an input of the step.
-/

structure SchedConfig where
  debounceDelay : Nat := 5000

structure SchedState where
  isActive : Bool
  isUserActive : Bool
  lastActivity : Nat
  lastSave : Nat
  saveCount : Nat
  autoSaveTimer : Bool
  debounceTimer : Bool
deriving DecidableEq

inductive SaveOutcome where
  | success
  | cancelled
  | failure
deriving DecidableEq

/-- `SmartAutoSave.scheduleNextSave()`: while active, (re)arms the periodic
attempt timer. -/
def scheduleNextSave (s : SchedState) : SchedState :=
  if !s.isActive then s else { s with autoSaveTimer := true }

/-- `SmartAutoSave.executeSave()`: on success records the save; any error is
caught; the `finally` block always reschedules the next attempt. -/
def executeSave (s : SchedState) (now : Nat) (outcome : SaveOutcome) : SchedState :=
  let s := match outcome with
    | .success => { s with lastSave := now, saveCount := s.saveCount + 1 }
    | .cancelled => s
    | .failure => s
  scheduleNextSave s

/-- `SmartAutoSave.performSave()` (run when the periodic timer fires): skips
and reschedules when nothing changed; defers through the debounce timer on
recent activity; otherwise saves immediately. -/
def performSave (cfg : SchedConfig) (s : SchedState) (now : Nat) (hasChanges : Bool)
    (outcome : SaveOutcome) : SchedState :=
  if !s.isActive then s
  else if !hasChanges then scheduleNextSave s
  else if now - s.lastActivity < cfg.debounceDelay && s.isUserActive then
    { s with debounceTimer := true }
  else executeSave s now outcome

/-- A snapshot attempt is pending whenever either timer is armed. -/
def attemptPending (s : SchedState) : Bool :=
  s.autoSaveTimer || s.debounceTimer

/-- The periodic timer firing consumes it before `performSave` runs. -/
def fireAutoSaveTimer (s : SchedState) : SchedState :=
  { s with autoSaveTimer := false }

/-- The debounce timer firing consumes it before `executeSave` runs. -/
def fireDebounceTimer (s : SchedState) : SchedState :=
  { s with debounceTimer := false }

/-!
## Concrete fixtures used by witnesses
-/

def sampleSaveData : SaveData := {
  expensesData := .arr [.obj [("id", .str "e1"), ("amount", .num 50)]],
  incomeData := .arr [],
  cards := .arr [],
  catIncome := .arr [],
  catExpense := .arr [.str "food"],
  achievements := .arr [],
  monthlyGoal := some "1500",
  timestamp := "2024-03-01T00:00:00.000Z",
  hash := "123",
  version := "2.0" }

def sampleSnapshot : Snapshot :=
  { id := 5, timestamp := "2024-03-01T00:00:00.000Z", data := sampleSaveData, hash := "123" }

def storeWithHistory : Store := { emptyStore with autoSaveHistory := some [sampleSnapshot] }

/-!
## Claims
-/

set_option maxRecDepth 2000 in
/-- C1: the spec's snapshot idempotence claim fails on the code.
`generateDataHash` embeds `timestamp: Date.now()` in the hashed payload, so
two `autoSave()` calls with no intervening mutation but distinct `Date.now()`
observations (here 1000 and 1001) compute different fingerprints and the
second call appends a second history entry instead of being a silent no-op:
starting from an empty store, the history length after two calls is 2. -/
theorem c1_autoSave_not_idempotent :
    (getAutoSaveVersions (autoSave 20 (autoSave 20 ⟨emptyStore, none⟩ 1000 "2024-01-01T00:00:01.000Z")
      1001 "2024-01-01T00:00:01.001Z").store).length = 2
    ∧ generateDataHash emptyStore 1000 ≠ generateDataHash emptyStore 1001 := by
  decide

/-- C4: `restoreAutoSaveVersion(id)` on a miss returns `false` and leaves the
whole store untouched; on a hit it returns `true` and overwrites every
collection key with the snapshot's stored data (collections defaulting to
`[]` when the stored field is falsy, as `data.x || []` does). -/
theorem c4_restore_spec (store : Store) (versionId : Int) :
    ((getAutoSaveVersions store).find? (fun v => v.id == versionId) = none →
      restoreAutoSaveVersion store versionId = (false, store))
    ∧ (∀ version, (getAutoSaveVersions store).find? (fun v => v.id == versionId) = some version →
      (restoreAutoSaveVersion store versionId).1 = true
      ∧ (restoreAutoSaveVersion store versionId).2.expensesData = some (jsOrEmptyArrV version.data.expensesData)
      ∧ (restoreAutoSaveVersion store versionId).2.incomeData = some (jsOrEmptyArrV version.data.incomeData)
      ∧ (restoreAutoSaveVersion store versionId).2.cards = some (jsOrEmptyArrV version.data.cards)
      ∧ (restoreAutoSaveVersion store versionId).2.incomeCategories = some (jsOrEmptyArrV version.data.catIncome)
      ∧ (restoreAutoSaveVersion store versionId).2.expenseCategories = some (jsOrEmptyArrV version.data.catExpense)
      ∧ (restoreAutoSaveVersion store versionId).2.achievements = some (jsOrEmptyArrV version.data.achievements)) := by
  constructor
  · intro h
    simp [restoreAutoSaveVersion, h]
  · intro version h
    simp [restoreAutoSaveVersion, h]

/-- C4 witness: with a history holding exactly one snapshot (id 5),
restoring id 999 fails and changes nothing, while restoring id 5 succeeds
and rewrites the expenses collection from the snapshot. -/
theorem c4_witness :
    restoreAutoSaveVersion storeWithHistory 999 = (false, storeWithHistory)
    ∧ (restoreAutoSaveVersion storeWithHistory 5).1 = true
    ∧ (restoreAutoSaveVersion storeWithHistory 5).2.expensesData
        = some (jsOrEmptyArrV sampleSaveData.expensesData) :=
  ⟨(c4_restore_spec storeWithHistory 999).1 rfl,
   ((c4_restore_spec storeWithHistory 5).2 sampleSnapshot rfl).1,
   ((c4_restore_spec storeWithHistory 5).2 sampleSnapshot rfl).2.1⟩

/-- C5: whenever `expensesData`, `incomeData` or `cards` in the parsed file
is not an array, the import rejects with a message and the store is exactly
the one from before the call: validation runs before any write. -/
theorem c5_import_validation (failedKeys : List String) (store : Store) (d : JsonVal)
    (h : isArrayO (jsGetField d "expensesData") = false
       ∨ isArrayO (jsGetField d "incomeData") = false
       ∨ isArrayO (jsGetField d "cards") = false) :
    (loadFromFileData failedKeys store (some d)).1.isSome = true
    ∧ (loadFromFileData failedKeys store (some d)).2 = store := by
  have hv : validateDataStructure d = false := by
    rcases h with h | h | h <;> simp [validateDataStructure, h]
  by_cases ht : jsTruthy d = false <;> simp [loadFromFileData, ht, hv]

/-- C5 witness: the spec's example input with `expensesData: "not-a-list"`
is rejected and no key is modified. -/
theorem c5_witness :
    (loadFromFileData [] emptyStore (some (.obj [("expensesData", .str "not-a-list"),
      ("incomeData", .arr []), ("cards", .arr [])]))).1.isSome = true
    ∧ (loadFromFileData [] emptyStore (some (.obj [("expensesData", .str "not-a-list"),
      ("incomeData", .arr []), ("cards", .arr [])]))).2 = emptyStore :=
  c5_import_validation [] emptyStore _ (Or.inl rfl)

/-- C8: with the scheduler active, a periodic-timer attempt leaves a pending
attempt behind in every case (no changes, debounce deferral, or an executed
save of any outcome), and a deferred debounce execution does too — in
particular a failed save still reschedules the next attempt. -/
theorem c8_scheduler_liveness (cfg : SchedConfig) (s : SchedState) (now : Nat)
    (hasChanges : Bool) (outcome : SaveOutcome) (h : s.isActive = true) :
    attemptPending (performSave cfg (fireAutoSaveTimer s) now hasChanges outcome) = true
    ∧ attemptPending (executeSave (fireDebounceTimer s) now outcome) = true := by
  constructor
  · cases hasChanges <;> cases outcome <;>
      simp [performSave, fireAutoSaveTimer, attemptPending, scheduleNextSave, executeSave, h] <;>
      split <;> simp
  · cases outcome <;>
      simp [executeSave, fireDebounceTimer, attemptPending, scheduleNextSave, h]

def schedActive : SchedState :=
  { isActive := true, isUserActive := true, lastActivity := 0, lastSave := 0,
    saveCount := 0, autoSaveTimer := true, debounceTimer := false }

/-- C8 witness: a concrete active scheduler state where the save attempt
fails still has a pending next attempt on both paths. -/
theorem c8_witness :
    attemptPending (performSave {} (fireAutoSaveTimer schedActive) 100000 true .failure) = true
    ∧ attemptPending (executeSave (fireDebounceTimer schedActive) 100000 .failure) = true :=
  c8_scheduler_liveness {} schedActive 100000 true .failure rfl

lemma find?_jsSetFieldList (k : String) (x : JsonVal) :
    ∀ fields, ((jsSetFieldList k x fields).find? (fun f => f.1 == k)).map (fun f => f.2) = some x
  | [] => by simp [jsSetFieldList]
  | f :: fs => by
    by_cases h : f.1 == k
    · simp [jsSetFieldList, h, List.find?]
    · simp only [jsSetFieldList, h, if_false, List.find?_cons, h]
      simpa [h] using find?_jsSetFieldList k x fs

lemma jsGetField_jsSetField (fields : List (String × JsonVal)) (k : String) (x : JsonVal) :
    jsGetField (jsSetField (.obj fields) k x) k = some x := by
  simp [jsSetField, jsGetField, find?_jsSetFieldList]

lemma natToBase36Aux_ne_nil (n : Nat) (h : n ≠ 0) : natToBase36Aux n ≠ [] := by
  cases n with
  | zero => exact absurd rfl h
  | succ m => simp [natToBase36Aux]

lemma natToBase36_length_pos (n : Nat) : 0 < (natToBase36 n).length := by
  by_cases h : n = 0
  · subst h; decide
  · have := natToBase36Aux_ne_nil n h
    simp only [natToBase36, h, if_false]
    cases hx : natToBase36Aux n with
    | nil => exact absurd hx this
    | cons c cs => simp [String.length, hx]

lemma mintId_length_pos (now : Nat) (randSuffix : String) : 0 < (mintId now randSuffix).length := by
  have := natToBase36_length_pos now
  simp only [mintId, String.length_append]
  omega

/-- C9: `addExpense` on a record with a falsy/absent id, starting from an
empty expenses collection, returns the record with the freshly minted
non-empty id, and the collection afterwards holds exactly that one record. -/
theorem c9_addExpense_spec (store : Store) (expense : JsonVal) (now : Nat) (randSuffix : String)
    (hempty : getExpenses store = .arr [])
    (hnoid : jsTruthyO (jsGetField expense "id") = false)
    (hobj : ∃ fields, expense = .obj fields) :
    ∃ r store', addExpense store expense now randSuffix = some (r, store')
      ∧ jsGetField r "id" = some (.str (mintId now randSuffix))
      ∧ 0 < (mintId now randSuffix).length
      ∧ getExpenses store' = .arr [r] := by
  obtain ⟨fields, rfl⟩ := hobj
  refine ⟨jsSetField (.obj fields) "id" (.str (mintId now randSuffix)),
    { store with expensesData := some (.arr [jsSetField (.obj fields) "id" (.str (mintId now randSuffix))]) },
    ?_, ?_, mintId_length_pos now randSuffix, ?_⟩
  · simp [addExpense, hempty, hnoid]
  · exact jsGetField_jsSetField fields "id" (.str (mintId now randSuffix))
  · simp [getExpenses]

/-- C9 witness: the spec's example record (Lunch, 50, food, 2024-03-01) with
no id. -/
theorem c9_witness :
    ∃ r store', addExpense emptyStore (.obj [("description", .str "Lunch"), ("amount", .num 50),
        ("category", .str "food"), ("date", .str "2024-03-01")]) 1709251200000 "q3k9z" = some (r, store')
      ∧ jsGetField r "id" = some (.str (mintId 1709251200000 "q3k9z"))
      ∧ 0 < (mintId 1709251200000 "q3k9z").length
      ∧ getExpenses store' = .arr [r] :=
  c9_addExpense_spec emptyStore _ 1709251200000 "q3k9z" rfl rfl ⟨_, rfl⟩

/-- C10: `restoreDataSafely` reports success exactly when at least one write
counted (one of the six collection keys succeeded, or the input carries a
truthy `monthlyGoal`); a failed collection write leaves that key's old value
while a succeeding one commits the new value, so a partially failing but
not fully failing restore commits a mixture and still reports success —
and the import path then resolves successfully. -/
theorem c10_partial_restore_success (failedKeys : List String) (store : Store) (d : JsonVal) :
    ((restoreDataSafely failedKeys store d).1 = true ↔
      (failedKeys.contains "expensesData" = false ∨ failedKeys.contains "incomeData" = false
       ∨ failedKeys.contains "cards" = false ∨ failedKeys.contains "income-categories" = false
       ∨ failedKeys.contains "expense-categories" = false ∨ failedKeys.contains "achievements" = false
       ∨ jsTruthyO (jsGetField d "monthlyGoal") = true))
    ∧ (failedKeys.contains "incomeData" = true →
        (restoreDataSafely failedKeys store d).2.incomeData = store.incomeData)
    ∧ (failedKeys.contains "expensesData" = false →
        (restoreDataSafely failedKeys store d).2.expensesData
          = some (jsOrEmptyArr (jsGetField d "expensesData")))
    ∧ (validateDataStructure d = true → (restoreDataSafely failedKeys store d).1 = true →
        loadFromFileData failedKeys store (some d) = (none, (restoreDataSafely failedKeys store d).2)) := by
  refine ⟨?_, ?_, ?_, ?_⟩
  · simp only [restoreDataSafely]
    by_cases h1 : failedKeys.contains "expensesData" <;>
    by_cases h2 : failedKeys.contains "incomeData" <;>
    by_cases h3 : failedKeys.contains "cards" <;>
    by_cases h4 : failedKeys.contains "income-categories" <;>
    by_cases h5 : failedKeys.contains "expense-categories" <;>
    by_cases h6 : failedKeys.contains "achievements" <;>
    by_cases h7 : jsTruthyO (jsGetField d "monthlyGoal") <;>
      simp_all [opCount]
  · intro h2
    have h2' : "incomeData" ∈ failedKeys := by simpa using h2
    simp [restoreDataSafely, opVal, h2']
  · intro h1
    have h1' : "expensesData" ∉ failedKeys := by simpa using h1
    simp [restoreDataSafely, opVal, h1']
  · intro hval hok
    have ht : jsTruthy d = true := by
      have := hval
      simp [validateDataStructure, Bool.and_eq_true] at this
      exact this.1.1.1
    simp [loadFromFileData, ht, hval, hok]

/-- C10 witness: importing a structurally valid bundle while the
`incomeData` and `cards` writes fail and the `expensesData` write succeeds
reports success, commits the new expenses and keeps the old incomes. -/
theorem c10_witness :
    ((restoreDataSafely ["incomeData", "cards"]
        { emptyStore with incomeData := some (.arr [.str "old"]) }
        (.obj [("expensesData", .arr [.str "new"]), ("incomeData", .arr []), ("cards", .arr [])])).1 = true
      ↔ (["incomeData", "cards"].contains "expensesData" = false
         ∨ ["incomeData", "cards"].contains "incomeData" = false
         ∨ ["incomeData", "cards"].contains "cards" = false
         ∨ ["incomeData", "cards"].contains "income-categories" = false
         ∨ ["incomeData", "cards"].contains "expense-categories" = false
         ∨ ["incomeData", "cards"].contains "achievements" = false
         ∨ jsTruthyO (jsGetField (.obj [("expensesData", .arr [.str "new"]), ("incomeData", .arr []),
             ("cards", .arr [])]) "monthlyGoal") = true))
    ∧ (restoreDataSafely ["incomeData", "cards"]
        { emptyStore with incomeData := some (.arr [.str "old"]) }
        (.obj [("expensesData", .arr [.str "new"]), ("incomeData", .arr []), ("cards", .arr [])])).2.incomeData
        = some (.arr [.str "old"])
    ∧ loadFromFileData ["incomeData", "cards"]
        { emptyStore with incomeData := some (.arr [.str "old"]) }
        (some (.obj [("expensesData", .arr [.str "new"]), ("incomeData", .arr []), ("cards", .arr [])]))
        = (none, (restoreDataSafely ["incomeData", "cards"]
            { emptyStore with incomeData := some (.arr [.str "old"]) }
            (.obj [("expensesData", .arr [.str "new"]), ("incomeData", .arr []), ("cards", .arr [])])).2) :=
  ⟨(c10_partial_restore_success ["incomeData", "cards"] _ _).1,
   (c10_partial_restore_success ["incomeData", "cards"] _ _).2.1 rfl,
   (c10_partial_restore_success ["incomeData", "cards"] _ _).2.2.2 rfl
     ((c10_partial_restore_success ["incomeData", "cards"] _ _).1.mpr (Or.inl rfl))⟩

/-- Repeated snapshot creation: each element of `saves` is one
`saveAutoSaveVersion` invocation with its `Date.now()` observation and
bundle, applied in chronological order. -/
def runSaves (maxVersions : Nat) : Store → List (Int × SaveData) → Store
  | store, [] => store
  | store, (t, d) :: rest => runSaves maxVersions (saveAutoSaveVersion maxVersions store t d) rest

lemma getAutoSaveVersions_save (maxVersions : Nat) (store : Store) (t : Int) (d : SaveData) :
    getAutoSaveVersions (saveAutoSaveVersion maxVersions store t d)
      = (if (({ id := t, timestamp := d.timestamp, data := d, hash := d.hash : Snapshot })
            :: getAutoSaveVersions store).length > maxVersions
         then (({ id := t, timestamp := d.timestamp, data := d, hash := d.hash : Snapshot })
            :: getAutoSaveVersions store).take maxVersions
         else ({ id := t, timestamp := d.timestamp, data := d, hash := d.hash : Snapshot })
            :: getAutoSaveVersions store) := by
  simp only [saveAutoSaveVersion, getAutoSaveVersions]
  split <;> simp

lemma runSaves_inv (maxVersions : Nat) :
    ∀ (saves : List (Int × SaveData)) (store : Store),
      (getAutoSaveVersions store).length ≤ maxVersions →
      (getAutoSaveVersions store).Pairwise (fun a b => b.id ≤ a.id) →
      (∀ e ∈ getAutoSaveVersions store, ∀ t ∈ saves.map Prod.fst, e.id ≤ t) →
      (saves.map Prod.fst).Pairwise (· ≤ ·) →
      (getAutoSaveVersions (runSaves maxVersions store saves)).length ≤ maxVersions
      ∧ (getAutoSaveVersions (runSaves maxVersions store saves)).Pairwise (fun a b => b.id ≤ a.id)
  | [], _, hlen, hsort, _, _ => ⟨hlen, hsort⟩
  | (t, d) :: rest, store, hlen, hsort, hbound, hmono => by
    rw [runSaves]
    have hmono0 : (t :: rest.map Prod.fst).Pairwise (· ≤ ·) := by
      simpa using hmono
    obtain ⟨hthead, hmonorest⟩ := List.pairwise_cons.mp hmono0
    set snap : Snapshot := { id := t, timestamp := d.timestamp, data := d, hash := d.hash } with hsnap
    have hcons : (snap :: getAutoSaveVersions store).Pairwise (fun a b => b.id ≤ a.id) := by
      refine List.pairwise_cons.mpr ⟨?_, hsort⟩
      intro e he
      exact hbound e he t (by simp)
    have havs : getAutoSaveVersions (saveAutoSaveVersion maxVersions store t d)
        = if (snap :: getAutoSaveVersions store).length > maxVersions
          then (snap :: getAutoSaveVersions store).take maxVersions
          else snap :: getAutoSaveVersions store :=
      getAutoSaveVersions_save maxVersions store t d
    refine runSaves_inv maxVersions rest (saveAutoSaveVersion maxVersions store t d) ?_ ?_ ?_ hmonorest
    · rw [havs]
      split
      · rw [List.length_take]
        omega
      · omega
    · rw [havs]
      split
      · exact hcons.sublist (List.take_sublist _ _)
      · exact hcons
    · intro e he t' ht'
      rw [havs] at he
      have he' : e ∈ snap :: getAutoSaveVersions store := by
        revert he
        split
        · intro he
          exact List.take_subset _ _ he
        · intro he
          exact he
      rcases List.mem_cons.mp he' with rfl | hmem
      · simpa [hsnap] using hthead t' ht'
      · refine hbound e hmem t' ?_
        simp only [List.map_cons]
        exact List.mem_cons_of_mem _ ht'

/-- C3: starting from an empty history, after any chronologically ordered
sequence of snapshot creations the history returned by
`getAutoSaveVersions()` always has length at most the configured maximum
and is sorted newest-first by snapshot id (the creation timestamp). -/
theorem c3_history_bounded_sorted (maxVersions : Nat) (saves : List (Int × SaveData)) (store : Store)
    (hempty : store.autoSaveHistory = none)
    (hchron : (saves.map Prod.fst).Pairwise (· ≤ ·)) :
    (getAutoSaveVersions (runSaves maxVersions store saves)).length ≤ maxVersions
    ∧ (getAutoSaveVersions (runSaves maxVersions store saves)).Pairwise (fun a b => b.id ≤ a.id) := by
  have h0 : getAutoSaveVersions store = [] := by simp [getAutoSaveVersions, hempty]
  exact runSaves_inv maxVersions saves store (by simp [h0]) (by simp [h0]) (by simp [h0]) hchron

/-- C3 witness: three snapshot creations with maximum 2 leave at most 2
entries, sorted newest-first. -/
theorem c3_witness :
    (getAutoSaveVersions (runSaves 2 emptyStore
      [(1, sampleSaveData), (2, sampleSaveData), (3, sampleSaveData)])).length ≤ 2
    ∧ (getAutoSaveVersions (runSaves 2 emptyStore
      [(1, sampleSaveData), (2, sampleSaveData), (3, sampleSaveData)])).Pairwise (fun a b => b.id ≤ a.id) :=
  c3_history_bounded_sorted 2 [(1, sampleSaveData), (2, sampleSaveData), (3, sampleSaveData)]
    emptyStore rfl (by decide)

lemma sortListeners_pairwise (ls : List Listener) : (sortListeners ls).Pairwise priorityGE := by
  have htot : IsTotal Listener priorityGE := ⟨fun a b => Or.symm (le_total a.priority b.priority)⟩
  have htrans : IsTrans Listener priorityGE := ⟨fun _ _ _ hab hbc => le_trans hbc hab⟩
  exact List.sorted_insertionSort priorityGE ls

lemma sortListeners_perm (ls : List Listener) : List.Perm (sortListeners ls) ls :=
  List.perm_insertionSort priorityGE ls

lemma emitLoop_invoked_ignore (opts : EmitOptions) (h : opts.ignoreStopPropagation = true) :
    ∀ ls, (emitLoop opts ls).invoked = ls
  | [] => rfl
  | l :: rest => by
    cases ho : l.outcome <;>
      simp [emitLoop, ho, h, emitLoop_invoked_ignore opts h rest]

lemma emitLoop_invoked_stop (opts : EmitOptions) (h : opts.ignoreStopPropagation = false) :
    ∀ ls, (emitLoop opts ls).invoked = takeThroughStop ls
  | [] => rfl
  | l :: rest => by
    cases ho : l.outcome <;>
      simp [emitLoop, takeThroughStop, ho, h, emitLoop_invoked_stop opts h rest]

lemma emitLoop_count (opts : EmitOptions) :
    ∀ ls, (emitLoop opts ls).count = (emitLoop opts ls).invoked.countP (execPred opts)
  | [] => rfl
  | l :: rest => by
    cases ho : l.outcome
    · simp [emitLoop, ho, List.countP_cons, execPred, emitLoop_count opts rest]
    · by_cases hig : opts.ignoreStopPropagation <;>
        simp [emitLoop, ho, hig, List.countP_cons, execPred, emitLoop_count opts rest]
    · simp [emitLoop, ho, List.countP_cons, execPred, emitLoop_count opts rest]

lemma emitLoop_removeIds (opts : EmitOptions) :
    ∀ ls, (emitLoop opts ls).removeIds
      = ((emitLoop opts ls).invoked.filter (removePred opts)).map Listener.id
  | [] => rfl
  | l :: rest => by
    cases ho : l.outcome
    · by_cases honce : l.once <;>
        simp [emitLoop, ho, honce, removePred, List.filter_cons, emitLoop_removeIds opts rest]
    · by_cases hig : opts.ignoreStopPropagation
      · by_cases honce : l.once <;>
          simp [emitLoop, ho, hig, honce, removePred, List.filter_cons, emitLoop_removeIds opts rest]
      · simp [emitLoop, ho, hig, removePred, List.filter_cons]
    · by_cases hre : opts.removeOnError <;>
        simp [emitLoop, ho, hre, removePred, List.filter_cons, emitLoop_removeIds opts rest]

lemma emitLoop_invoked_sublist (opts : EmitOptions) :
    ∀ ls, List.Sublist (emitLoop opts ls).invoked ls
  | [] => List.Sublist.refl []
  | l :: rest => by
    cases ho : l.outcome
    · simpa [emitLoop, ho] using (emitLoop_invoked_sublist opts rest).cons₂ l
    · by_cases hig : opts.ignoreStopPropagation
      · simpa [emitLoop, ho, hig] using (emitLoop_invoked_sublist opts rest).cons₂ l
      · simp [emitLoop, ho, hig]
    · simpa [emitLoop, ho] using (emitLoop_invoked_sublist opts rest).cons₂ l

lemma takeThroughStop_of_no_stop :
    ∀ ls, (∀ l ∈ ls, l.outcome ≠ .stop) → takeThroughStop ls = ls
  | [], _ => rfl
  | l :: rest, h => by
    have hl : (l.outcome == .stop) = false := by
      have := h l (List.mem_cons_self l rest)
      cases ho : l.outcome <;> simp_all
    simp [takeThroughStop, hl,
      takeThroughStop_of_no_stop rest (fun x hx => h x (List.mem_cons_of_mem l hx))]

/-- C2 (amended): `emit` returns `true` iff at least one handler ran to
completion without throwing and without returning the (unoverridden) stop
sentinel — `executedCount` skips throwing handlers and, when
`ignoreStopPropagation` is not set, the propagation-stopping handler itself,
which runs but is not counted; the invoked handlers are in descending
priority order; without the override the invocation sequence is exactly the
sorted listener list cut at (and including) the first stop-returning
handler, and with the override it is the whole sorted list. -/
theorem c2_emit_spec (ls : List Listener) (opts : EmitOptions) :
    ((emit ls opts).handled = true ↔ 0 < (emit ls opts).invoked.countP (execPred opts))
    ∧ (emit ls opts).invoked.Pairwise priorityGE
    ∧ (opts.ignoreStopPropagation = false →
        (emit ls opts).invoked = takeThroughStop (sortListeners ls))
    ∧ (opts.ignoreStopPropagation = true →
        (emit ls opts).invoked = sortListeners ls) := by
  by_cases hls : ls.isEmpty
  · have : ls = [] := List.isEmpty_iff.mp hls
    subst this
    refine ⟨by simp [emit], by simp [emit], ?_, ?_⟩ <;>
      intro h <;> simp [emit, sortListeners, takeThroughStop, List.insertionSort]
  · have hemit : emit ls opts = ⟨decide (0 < (emitLoop opts (sortListeners ls)).count),
        ls.filter (fun l => !((emitLoop opts (sortListeners ls)).removeIds.contains l.id)),
        (emitLoop opts (sortListeners ls)).invoked⟩ := by
      simp [emit, hls]
    refine ⟨?_, ?_, ?_, ?_⟩
    · rw [hemit, emitLoop_count]
      simp
    · rw [hemit]
      exact (sortListeners_pairwise ls).sublist (emitLoop_invoked_sublist opts (sortListeners ls))
    · intro h
      rw [hemit]
      exact emitLoop_invoked_stop opts h (sortListeners ls)
    · intro h
      rw [hemit]
      exact emitLoop_invoked_ignore opts h (sortListeners ls)

/-- C2 counterexample: a single registered handler that returns the stop
sentinel executes (the invocation list has length 1), yet `emit` returns
`false`, because the stop-check precedes `executedCount++`; so "returns true
iff at least one handler executed" fails as stated. -/
theorem c2_counterexample :
    (emit [{ id := 1, priority := 0, once := false, outcome := .stop }] {}).handled = false
    ∧ (emit [{ id := 1, priority := 0, once := false, outcome := .stop }] {}).invoked.length = 1 := by
  decide

/-- C2 witness: a three-handler bus (priorities 5, 3, 1; the middle one
returns the stop sentinel) reports `true`, and the invocation sequence is
the priority-sorted list cut at the stop handler. -/
theorem c2_witness :
    (emit [{ id := 1, priority := 5, once := false, outcome := .ok },
           { id := 2, priority := 3, once := false, outcome := .stop },
           { id := 3, priority := 1, once := false, outcome := .ok }] {}).handled = true
    ∧ (emit [{ id := 1, priority := 5, once := false, outcome := .ok },
           { id := 2, priority := 3, once := false, outcome := .stop },
           { id := 3, priority := 1, once := false, outcome := .ok }] {}).invoked
        = takeThroughStop (sortListeners [{ id := 1, priority := 5, once := false, outcome := .ok },
           { id := 2, priority := 3, once := false, outcome := .stop },
           { id := 3, priority := 1, once := false, outcome := .ok }]) :=
  ⟨(c2_emit_spec _ {}).1.mpr (by decide), (c2_emit_spec _ {}).2.2.1 rfl⟩

/-- C6: (i) with no stop-returning handler registered, a throwing handler
does not prevent any other handler from running — every registered handler
is invoked; (ii) a throwing handler that was invoked is removed from the
registered listeners if and only if the `removeOnError` option was set on
the emit call (ids assumed distinct, as `on` mints them). -/
theorem c6_error_containment (ls : List Listener) (opts : EmitOptions) :
    ((∀ l ∈ ls, l.outcome ≠ .stop) → ∀ l ∈ ls, l ∈ (emit ls opts).invoked)
    ∧ ((ls.map Listener.id).Nodup →
        ∀ l ∈ ls, l.outcome = .err → l ∈ (emit ls opts).invoked →
          (l ∈ (emit ls opts).listeners ↔ opts.removeOnError = false)) := by
  constructor
  · intro hnostop l hl
    have hls : ls.isEmpty = false := by
      cases ls with
      | nil => cases hl
      | cons a as => rfl
    have hlsorted : l ∈ sortListeners ls := (sortListeners_perm ls).mem_iff.mpr hl
    have hemit : (emit ls opts).invoked = (emitLoop opts (sortListeners ls)).invoked := by
      simp [emit, hls]
    rw [hemit]
    by_cases hig : opts.ignoreStopPropagation
    · rw [emitLoop_invoked_ignore opts hig]
      exact hlsorted
    · rw [emitLoop_invoked_stop opts (by simpa using hig),
        takeThroughStop_of_no_stop _ (fun x hx => hnostop x ((sortListeners_perm ls).subset hx))]
      exact hlsorted
  · intro hnodup l hl herr hinv
    have hls : ls.isEmpty = false := by
      cases ls with
      | nil => cases hl
      | cons a as => rfl
    have hemit : emit ls opts = ⟨decide (0 < (emitLoop opts (sortListeners ls)).count),
        ls.filter (fun x => !((emitLoop opts (sortListeners ls)).removeIds.contains x.id)),
        (emitLoop opts (sortListeners ls)).invoked⟩ := by
      simp [emit, hls]
    rw [hemit] at hinv ⊢
    simp only at hinv ⊢
    have hinj : ∀ x ∈ ls, ∀ y ∈ ls, x.id = y.id → x = y := fun x hx y hy hxy =>
      List.inj_on_of_nodup_map hnodup hx hy hxy
    have hsubset : ∀ x ∈ (emitLoop opts (sortListeners ls)).invoked, x ∈ ls := fun x hx =>
      (sortListeners_perm ls).subset ((emitLoop_invoked_sublist opts (sortListeners ls)).subset hx)
    have hcontains : (emitLoop opts (sortListeners ls)).removeIds.contains l.id
        = opts.removeOnError := by
      rw [emitLoop_removeIds]
      by_cases hre : opts.removeOnError
      · rw [hre]
        have hmeml : l ∈ (emitLoop opts (sortListeners ls)).invoked.filter (removePred opts) := by
          rw [List.mem_filter]
          exact ⟨hinv, by simp [removePred, herr, hre]⟩
        exact List.elem_iff.mpr (List.mem_map_of_mem Listener.id hmeml)
      · have hre' : opts.removeOnError = false := by simpa using hre
        rw [hre']
        by_contra hc
        have hc' : l.id ∈ ((emitLoop opts (sortListeners ls)).invoked.filter
            (removePred opts)).map Listener.id := by
          have := Bool.of_not_eq_false hc
          exact List.elem_iff.mp this
        obtain ⟨m, hm, hmid⟩ := List.mem_map.mp hc'
        have hmf := List.mem_filter.mp hm
        have hml : m ∈ ls := hsubset m hmf.1
        have hmeq : m = l := hinj m hml l hl hmid
        subst hmeq
        simp [removePred, herr, hre'] at hmf
    constructor
    · intro hmem
      have := (List.mem_filter.mp hmem).2
      rw [hcontains] at this
      simpa using this
    · intro hre
      rw [List.mem_filter, hcontains, hre]
      exact ⟨hl, rfl⟩

/-- C6 witness: a high-priority throwing handler followed by a lower-priority
one; with `removeOnError` set, the lower-priority handler still runs and the
throwing handler is deregistered. -/
theorem c6_witness :
    ({ id := 2, priority := 1, once := false, outcome := .ok } : Listener)
      ∈ (emit [{ id := 1, priority := 2, once := false, outcome := .err },
               { id := 2, priority := 1, once := false, outcome := .ok }]
          { ignoreStopPropagation := false, removeOnError := true }).invoked
    ∧ ¬ (({ id := 1, priority := 2, once := false, outcome := .err } : Listener)
      ∈ (emit [{ id := 1, priority := 2, once := false, outcome := .err },
               { id := 2, priority := 1, once := false, outcome := .ok }]
          { ignoreStopPropagation := false, removeOnError := true }).listeners) := by
  refine ⟨?_, ?_⟩
  · exact (c6_error_containment _ _).1 (by decide) _ (by decide)
  · intro hmem
    have h := ((c6_error_containment
        [{ id := 1, priority := 2, once := false, outcome := .err },
         { id := 2, priority := 1, once := false, outcome := .ok }]
        { ignoreStopPropagation := false, removeOnError := true }).2
      (by decide) _ (by decide) rfl (by decide)).mp hmem
    simp at h

/-- No stored value is the empty string. -/
def noEmptyVals (kv : List (String × String)) : Prop := ∀ p ∈ kv, p.2 ≠ ""

instance (kv : List (String × String)) : Decidable (noEmptyVals kv) := by
  unfold noEmptyVals
  infer_instance

/-- Every `set` in the sequence stores a non-empty string. -/
def setsNonEmpty : StoreOp → Prop
  | .set _ v => v ≠ ""
  | _ => True

instance (op : StoreOp) : Decidable (setsNonEmpty op) := by
  cases op <;> simp only [setsNonEmpty] <;> infer_instance

lemma kvSet_mem : ∀ (kv : List (String × String)) (k v : String),
    ∀ p ∈ kvSet kv k v, p = (k, v) ∨ p ∈ kv
  | [], k, v, p, hp => by
    simp [kvSet] at hp
    exact Or.inl hp
  | q :: rest, k, v, p, hp => by
    by_cases h : q.1 == k
    · simp only [kvSet, h, if_true, List.mem_cons] at hp
      rcases hp with rfl | hp
      · exact Or.inl rfl
      · exact Or.inr (List.mem_cons_of_mem q hp)
    · have hfalse : (q.1 == k) = false := by simpa using h
      simp [kvSet, hfalse] at hp
      rcases hp with rfl | hp
      · exact Or.inr (List.mem_cons_self p rest)
      · rcases kvSet_mem rest k v p hp with h' | h'
        · exact Or.inl h'
        · exact Or.inr (List.mem_cons_of_mem q h')

lemma kvRemove_mem : ∀ (kv : List (String × String)) (k : String),
    ∀ p ∈ kvRemove kv k, p ∈ kv
  | [], _, p, hp => by simp [kvRemove] at hp
  | q :: rest, k, p, hp => by
    by_cases h : q.1 == k
    · simp only [kvRemove, h, if_true] at hp
      exact List.mem_cons_of_mem q hp
    · have hfalse : (q.1 == k) = false := by simpa using h
      simp [kvRemove, hfalse] at hp
      rcases hp with rfl | hp
      · exact List.mem_cons_self p rest
      · exact List.mem_cons_of_mem q (kvRemove_mem rest k p hp)

lemma noEmptyVals_kvSet (kv : List (String × String)) (k v : String)
    (hkv : noEmptyVals kv) (hv : v ≠ "") : noEmptyVals (kvSet kv k v) := by
  intro p hp
  rcases kvSet_mem kv k v p hp with rfl | hp'
  · exact hv
  · exact hkv p hp'

lemma noEmptyVals_kvRemove (kv : List (String × String)) (k : String)
    (hkv : noEmptyVals kv) : noEmptyVals (kvRemove kv k) :=
  fun p hp => hkv p (kvRemove_mem kv k p hp)

lemma kvGet_ne_empty (kv : List (String × String)) (k v : String)
    (hkv : noEmptyVals kv) (h : kvGet kv k = some v) : v ≠ "" := by
  simp only [kvGet, Option.map_eq_some'] at h
  obtain ⟨p, hp, rfl⟩ := h
  exact hkv p (List.mem_of_find?_eq_some hp)

/-- C7 (amended): as long as no operation stores the empty string, a
caller running any get/set/remove/has sequence observes exactly the same
results whether the persistent store is available or the adapter runs on
the in-memory fallback map. -/
theorem c7_fallback_equiv :
    ∀ (ops : List StoreOp) (shared lsOther memOther : List (String × String)),
      noEmptyVals shared →
      (∀ op ∈ ops, setsNonEmpty op) →
      runOps true shared memOther ops = runOps false lsOther shared ops
  | [], _, _, _, _, _ => rfl
  | .set k v :: rest, shared, lsOther, memOther, hshared, hops => by
    have hv : v ≠ "" := hops (.set k v) (List.mem_cons_self _ rest)
    have hrest : ∀ op ∈ rest, setsNonEmpty op := fun op hop => hops op (List.mem_cons_of_mem _ hop)
    by_cases hk : k = ""
    · simp only [runOps, setItem, hk, if_true, if_pos rfl]
      exact congrArg _ (c7_fallback_equiv rest shared lsOther memOther hshared hrest)
    · simp only [runOps, setItem, hk, if_false, if_neg hk, if_true]
      exact congrArg _ (c7_fallback_equiv rest (kvSet shared k v) lsOther memOther
        (noEmptyVals_kvSet shared k v hshared hv) hrest)
  | .get k d :: rest, shared, lsOther, memOther, hshared, hops => by
    have hrest : ∀ op ∈ rest, setsNonEmpty op := fun op hop => hops op (List.mem_cons_of_mem _ hop)
    have hobs : getItem true shared memOther k d = getItem false lsOther shared k d := by
      by_cases hk : k = ""
      · simp [getItem, hk]
      · simp only [getItem, hk, if_false, if_true]
        cases hget : kvGet shared k with
        | none => rfl
        | some v =>
          have : v ≠ "" := kvGet_ne_empty shared k v hshared hget
          simp [this]
    simp only [runOps, hobs]
    exact congrArg _ (c7_fallback_equiv rest shared lsOther memOther hshared hrest)
  | .remove k :: rest, shared, lsOther, memOther, hshared, hops => by
    have hrest : ∀ op ∈ rest, setsNonEmpty op := fun op hop => hops op (List.mem_cons_of_mem _ hop)
    by_cases hk : k = ""
    · simp only [runOps, removeItem, hk, if_true, if_pos rfl]
      exact congrArg _ (c7_fallback_equiv rest shared lsOther memOther hshared hrest)
    · simp only [runOps, removeItem, hk, if_false, if_neg hk, if_true]
      exact congrArg _ (c7_fallback_equiv rest (kvRemove shared k) lsOther memOther
        (noEmptyVals_kvRemove shared k hshared) hrest)
  | .has k :: rest, shared, lsOther, memOther, hshared, hops => by
    have hrest : ∀ op ∈ rest, setsNonEmpty op := fun op hop => hops op (List.mem_cons_of_mem _ hop)
    have hobs : hasItem true shared memOther k = hasItem false lsOther shared k := by
      by_cases hk : k = "" <;> simp [hasItem, hk]
    simp only [runOps, hobs]
    exact congrArg _ (c7_fallback_equiv rest shared lsOther memOther hshared hrest)

/-- C7 counterexample: the sequence `set("k", ""); get("k", "fallback")`
observes `""` when the persistent store is available but `"fallback"` in
the in-memory mode, because the fallback read `fallbackData.get(key) ||
defaultValue` treats a stored empty string as absent — so the claimed
strict equivalence for every operation sequence fails. -/
theorem c7_counterexample :
    runOps true [] [] [.set "k" "", .get "k" "fallback"]
      ≠ runOps false [] [] [.set "k" "", .get "k" "fallback"] := by
  decide

/-- C7 witness: a sequence of set/get/remove/has operations storing only
non-empty strings is observed identically in the two modes. -/
theorem c7_witness :
    runOps true [] [] [.set "a" "1", .get "a" "d", .has "a", .remove "a", .get "a" "d2", .has "a"]
      = runOps false [] [] [.set "a" "1", .get "a" "d", .has "a", .remove "a", .get "a" "d2", .has "a"] :=
  c7_fallback_equiv [.set "a" "1", .get "a" "d", .has "a", .remove "a", .get "a" "d2", .has "a"]
    [] [] [] (by decide) (by decide)
